import Mathlib

/-!
Verification of the audit pipeline of `audit_mvp.py` / `app.py`
(growth-marketing-audit).

The pipeline's pure core is shallowly embedded here:
  * `json_loads`    models Python's `json.loads` (strict JSON, dict
    semantics for objects, last-duplicate-key wins, trailing data rejected);
  * `extractBraces` models `re.search(r"(\x7b.*\x7d)", raw, re.DOTALL)`
    followed by `.group(1)`: the region from the first opening brace to the
    last closing brace, when a closing brace occurs after the first opening
    brace;
  * `analyzeParse`  models the parse step of `analyze` (audit_mvp.py
    lines 52-60): extract, deserialize, and on any failure return the
    fallback mapping with keys `error` and `raw`;
  * `build_prompt`, `sanitize_filename`, `build_pdf_out_file`,
    `grade_colors` / `gradeColor`, and the per-section normalization
    `sectionFields` of `build_pdf` are embedded directly from the source.

Strings are modelled as `List Char`.
-/

/-- JSON values as produced by Python's `json.loads`.  Numbers keep their
source lexeme (the claims under study never compare numeric values). -/
inductive JVal where
  | null : JVal
  | bool (b : Bool) : JVal
  | num (lex : List Char) : JVal
  | str (s : List Char) : JVal
  | arr (items : List JVal) : JVal
  | obj (fields : List (List Char × JVal)) : JVal

/-- Top-level keys of a JSON value: the key list of an object, `[]`
otherwise.  Used to discriminate values without decidable equality on
`JVal` itself. -/
def JVal.topKeys : JVal → List (List Char)
  | JVal.obj fields => fields.map Prod.fst
  | _ => []

/-- Python-dict insertion: an existing key keeps its position and gets the
new value; a fresh key is appended at the end. -/
def insertKey {β : Type} : List (List Char × β) → List Char → β → List (List Char × β)
  | [], k, v => [(k, v)]
  | (k', v') :: rest, k, v =>
    if k' = k then (k', v) :: rest else (k', v') :: insertKey rest k v

/-- First-match association lookup; models `dict.get` on the deduplicated
field lists that `json_loads` produces. -/
def lookupKey {β : Type} : List (List Char × β) → List Char → Option β
  | [], _ => none
  | (k', v) :: rest, k => if k' = k then some v else lookupKey rest k

/-- JSON whitespace, as accepted by Python's `json` module. -/
def isJsonWs (c : Char) : Bool :=
  c = ' ' || c = '\t' || c = '\n' || c = '\r'

/-- Drop leading JSON whitespace. -/
def skipWs : List Char → List Char
  | [] => []
  | c :: cs => if isJsonWs c then skipWs cs else c :: cs

/-- Value of a hexadecimal digit. -/
def hexDigitVal (c : Char) : Option Nat :=
  if '0' ≤ c ∧ c ≤ '9' then some (c.toNat - '0'.toNat)
  else if 'a' ≤ c ∧ c ≤ 'f' then some (c.toNat - 'a'.toNat + 10)
  else if 'A' ≤ c ∧ c ≤ 'F' then some (c.toNat - 'A'.toNat + 10)
  else none

/-- Single-character JSON string escapes. -/
def escapeChar (c : Char) : Option Char :=
  if c = '"' then some '"'
  else if c = '\\' then some '\\'
  else if c = '/' then some '/'
  else if c = 'b' then some (Char.ofNat 8)
  else if c = 'f' then some (Char.ofNat 12)
  else if c = 'n' then some '\n'
  else if c = 'r' then some '\r'
  else if c = 't' then some '\t'
  else none

/-- Parse the body of a JSON string after the opening quote, returning the
decoded content and the remaining input after the closing quote.  Raw
control characters are rejected (Python's strict mode); surrogate-pair
recombination of consecutive escapes is not modelled. -/
def parseStringBody : List Char → Option (List Char × List Char)
  | [] => none
  | c :: cs =>
    if c = '"' then some ([], cs)
    else if c = '\\' then
      match cs with
      | [] => none
      | e :: cs2 =>
        if e = 'u' then
          match cs2 with
          | a :: b :: c3 :: d :: cs3 =>
            match hexDigitVal a, hexDigitVal b, hexDigitVal c3, hexDigitVal d with
            | some va, some vb, some vc, some vd =>
              match parseStringBody cs3 with
              | some (content, rest) =>
                some (Char.ofNat (((va * 16 + vb) * 16 + vc) * 16 + vd) :: content, rest)
              | none => none
            | _, _, _, _ => none
          | _ => none
        else
          match escapeChar e with
          | some ec =>
            match parseStringBody cs2 with
            | some (content, rest) => some (ec :: content, rest)
            | none => none
          | none => none
    else if c.toNat < 32 then none
    else
      match parseStringBody cs with
      | some (content, rest) => some (c :: content, rest)
      | none => none

/-- Integer part of a JSON number: `0`, or a nonzero digit followed by
digits (leading zeros rejected, as in Python's `json`). -/
def parseIntPart : List Char → Option (List Char × List Char)
  | [] => none
  | c :: cs =>
    if c = '0' then some (['0'], cs)
    else if c.isDigit then
      let (ds, rest) := cs.span Char.isDigit
      some (c :: ds, rest)
    else none

/-- Optional fractional part `.digits`; consumes nothing when absent or
malformed (the regex group is optional). -/
def parseFrac (cs : List Char) : List Char × List Char :=
  match cs with
  | '.' :: cs2 =>
    let (ds, rest) := cs2.span Char.isDigit
    if ds.isEmpty then ([], cs) else ('.' :: ds, rest)
  | _ => ([], cs)

/-- Optional exponent part; consumes nothing when absent or malformed. -/
def parseExp (cs : List Char) : List Char × List Char :=
  match cs with
  | e :: cs2 =>
    if e = 'e' ∨ e = 'E' then
      match cs2 with
      | s :: cs3 =>
        if s = '+' ∨ s = '-' then
          let (ds, rest) := cs3.span Char.isDigit
          if ds.isEmpty then ([], cs) else (e :: s :: ds, rest)
        else
          let (ds, rest) := cs2.span Char.isDigit
          if ds.isEmpty then ([], cs) else (e :: ds, rest)
      | [] => ([], cs)
    else ([], cs)
  | [] => ([], cs)

/-- A JSON number lexeme, per the regex used by Python's `json` scanner. -/
def parseNumber (cs : List Char) : Option (List Char × List Char) :=
  match cs with
  | '-' :: cs2 =>
    match parseIntPart cs2 with
    | some (ip, rest) =>
      let (fp, rest2) := parseFrac rest
      let (ep, rest3) := parseExp rest2
      some ('-' :: (ip ++ fp ++ ep), rest3)
    | none => none
  | _ =>
    match parseIntPart cs with
    | some (ip, rest) =>
      let (fp, rest2) := parseFrac rest
      let (ep, rest3) := parseExp rest2
      some (ip ++ fp ++ ep, rest3)
    | none => none

mutual

/-- Fueled recursive-descent JSON value parser, modelling Python's `json`
scanner (including the `NaN` / `Infinity` / `-Infinity` constants). -/
def parseValue : Nat → List Char → Option (JVal × List Char)
  | 0, _ => none
  | Nat.succ fuel, cs0 =>
    let cs := skipWs cs0
    match cs with
    | [] => none
    | c :: rest =>
      if c = '"' then
        match parseStringBody rest with
        | some (s, r) => some (JVal.str s, r)
        | none => none
      else if c = '{' then
        let rest2 := skipWs rest
        match rest2 with
        | '}' :: r => some (JVal.obj [], r)
        | _ => parseMembers fuel [] rest2
      else if c = '[' then
        let rest2 := skipWs rest
        match rest2 with
        | ']' :: r => some (JVal.arr [], r)
        | _ => parseItems fuel [] rest2
      else
        match cs with
        | 't' :: 'r' :: 'u' :: 'e' :: r => some (JVal.bool true, r)
        | 'f' :: 'a' :: 'l' :: 's' :: 'e' :: r => some (JVal.bool false, r)
        | 'n' :: 'u' :: 'l' :: 'l' :: r => some (JVal.null, r)
        | 'N' :: 'a' :: 'N' :: r => some (JVal.num ['N', 'a', 'N'], r)
        | 'I' :: 'n' :: 'f' :: 'i' :: 'n' :: 'i' :: 't' :: 'y' :: r =>
          some (JVal.num ("Infinity".toList), r)
        | '-' :: 'I' :: 'n' :: 'f' :: 'i' :: 'n' :: 'i' :: 't' :: 'y' :: r =>
          some (JVal.num ("-Infinity".toList), r)
        | _ =>
          match parseNumber cs with
          | some (lex, r) => some (JVal.num lex, r)
          | none => none

/-- Members of a JSON object (input positioned at the first character of a
key, whitespace already skipped); duplicate keys follow Python-dict
semantics via `insertKey`. -/
def parseMembers : Nat → List (List Char × JVal) → List Char → Option (JVal × List Char)
  | 0, _, _ => none
  | Nat.succ fuel, acc, cs =>
    match cs with
    | '"' :: rest =>
      match parseStringBody rest with
      | some (k, r1) =>
        match skipWs r1 with
        | ':' :: r3 =>
          match parseValue fuel r3 with
          | some (v, r4) =>
            match skipWs r4 with
            | ',' :: r6 => parseMembers fuel (insertKey acc k v) (skipWs r6)
            | '}' :: r6 => some (JVal.obj (insertKey acc k v), r6)
            | _ => none
          | none => none
        | _ => none
      | none => none
    | _ => none

/-- Items of a JSON array (input positioned at the first item). -/
def parseItems : Nat → List JVal → List Char → Option (JVal × List Char)
  | 0, _, _ => none
  | Nat.succ fuel, acc, cs =>
    match parseValue fuel cs with
    | some (v, r1) =>
      match skipWs r1 with
      | ',' :: r3 => parseItems fuel (acc ++ [v]) r3
      | ']' :: r3 => some (JVal.arr (acc ++ [v]), r3)
      | _ => none
    | none => none

end

/-- Model of Python's `json.loads`: parse one value, then require only
whitespace to remain (otherwise Python raises "Extra data").  The fuel
`3 * length + 8` dominates the number of parser calls, each of which
consumes at least one character. -/
def json_loads (s : List Char) : Option JVal :=
  match parseValue (3 * s.length + 8) s with
  | some (v, rest) => if (skipWs rest).isEmpty then some v else none
  | none => none

/-- The suffix of the input starting at the first occurrence of `c`, or
`none` when `c` does not occur. -/
def suffixFrom (c : Char) : List Char → Option (List Char)
  | [] => none
  | x :: xs => if x = c then some (x :: xs) else suffixFrom c xs

/-- Model of `re.search(r"(\x7b.*\x7d)", raw, re.DOTALL)` followed by
`.group(1)` (audit_mvp.py line 54): the regex matches exactly when some
closing brace occurs after the first opening brace, and the greedy `.*`
then spans from the first opening brace to the last closing brace of the
whole input. -/
def extractBraces (raw : List Char) : Option (List Char) :=
  match suffixFrom '{' raw with
  | none => none
  | some t =>
    match suffixFrom '}' t.reverse with
    | none => none
    | some u => some u.reverse

/-- The literal key `error` of the fallback mapping. -/
def errKey : List Char := "error".toList

/-- The literal key `raw` of the fallback mapping. -/
def rawKey : List Char := "raw".toList

/-- The literal reason string of the fallback mapping. -/
def errMsg : List Char := "Could not parse JSON".toList

/-- Field list of the fallback mapping
`\x7b"error": "Could not parse JSON", "raw": raw\x7d`
(audit_mvp.py lines 58 and 60), in Python-dict insertion order. -/
def fallbackItems (raw : List Char) : List (List Char × JVal) :=
  [(errKey, JVal.str errMsg), (rawKey, JVal.str raw)]

/-- The fallback report value returned by `analyze` on any parse failure. -/
def fallbackReport (raw : List Char) : JVal :=
  JVal.obj (fallbackItems raw)

/-- The parse step of `analyze` (audit_mvp.py lines 52-60), applied to the
model's raw reply text: extract the brace-delimited region, deserialize
it, and on a missing region or any deserialization failure return the
fallback mapping.  Totality of this function is the embedding of "never
raises past this layer". -/
def analyzeParse (raw : List Char) : JVal :=
  match extractBraces raw with
  | some s =>
    match json_loads s with
    | some v => v
    | none => fallbackReport raw
  | none => fallbackReport raw

/-- Escape one character as Python's `json.dumps` does with its default
`ensure_ascii=True` (non-ASCII characters below `0x10000` become a
`\uXXXX` escape; astral characters, which would need a surrogate pair,
are not modelled precisely). -/
def dumpsEscapeChar (c : Char) : List Char :=
  if c = '"' then ['\\', '"']
  else if c = '\\' then ['\\', '\\']
  else if c = '\n' then ['\\', 'n']
  else if c = '\r' then ['\\', 'r']
  else if c = '\t' then ['\\', 't']
  else if c.toNat = 8 then ['\\', 'b']
  else if c.toNat = 12 then ['\\', 'f']
  else if c.toNat < 32 ∨ c.toNat > 126 then
    ['\\', 'u', Nat.digitChar (c.toNat / 4096 % 16), Nat.digitChar (c.toNat / 256 % 16),
      Nat.digitChar (c.toNat / 16 % 16), Nat.digitChar (c.toNat % 16)]
  else [c]

/-- `json.dumps` of a string. -/
def dumpsString (s : List Char) : List Char :=
  '"' :: (s.flatMap dumpsEscapeChar) ++ ['"']

/-- `json.dumps` of one key/value entry of a string-to-string dict. -/
def dumpsEntry (kv : List Char × List Char) : List Char :=
  dumpsString kv.1 ++ (": ".toList) ++ dumpsString kv.2

/-- The comma-joined entry list of `json.dumps` of a dict (the `", "`
item separator between serialized entries). -/
def joinEntries : List (List Char × List Char) → List Char
  | [] => []
  | [kv] => dumpsEntry kv
  | kv :: rest => dumpsEntry kv ++ (", ".toList) ++ joinEntries rest

/-- `json.dumps` of a string-to-string dict (the rubric), with the default
`", "` item separator and `": "` key separator. -/
def json_dumps_strdict (d : List (List Char × List Char)) : List Char :=
  '{' :: joinEntries d ++ ['}']

/-- First fixed fragment of the prompt template (audit_mvp.py line 36). -/
def promptPart1 : List Char :=
  "Analyze the following website text for Brand, Content, Website, and Marketing:\n\n".toList

/-- Second fixed fragment of the prompt template (lines 36-37). -/
def promptPart2 : List Char := "\n\nUse this rubric: ".toList

/-- Final fixed fragment of the prompt template (lines 37-40). -/
def promptPart3 : List Char :=
  ("\nReturn STRICT JSON ONLY with keys: Brand, Content, Website, Marketing.\n"
    ++ "Each key must contain: grade (A+ to F), reasoning (string), quick_wins (list of strings)."
    ++ "Provide a thoroughly detailed paragraph and actionable recommendations in the quick wins section and examples for each section").toList

/-- `build_prompt` (audit_mvp.py lines 33-41): the f-string template
embedding the scraped text and `json.dumps(rubric)`.  As a plain function
of its two arguments it is deterministic by construction. -/
def build_prompt (text : List Char) (rubric : List (List Char × List Char)) : List Char :=
  promptPart1 ++ text ++ promptPart2 ++ json_dumps_strdict rubric ++ promptPart3

/-- The character class `[\w\-_. ]` of `sanitize_filename`, with `\w`
modelled over its ASCII range (alphanumerics and underscore). -/
def isAllowedFilenameChar (c : Char) : Bool :=
  c.isAlphanum || c = '_' || c = '-' || c = '.' || c = ' '

/-- `sanitize_filename` (audit_mvp.py lines 76-78):
`re.sub` replaces every character outside the class with an underscore. -/
def sanitize_filename (name : List Char) : List Char :=
  name.map (fun c => if isAllowedFilenameChar c then c else '_')

/-- The output-file name computed by `build_pdf` (audit_mvp.py lines
203-205) from its second argument: `audit_` ++ sanitized name ++ `.pdf`.
The function writes the PDF to this path and returns it. -/
def build_pdf_out_file (website_url : List Char) : List Char :=
  ("audit_".toList) ++ sanitize_filename website_url ++ (".pdf".toList)

/-- The `grade_colors` table of `build_pdf` (audit_mvp.py lines 101-114). -/
def grade_colors : List (List Char × (Nat × Nat × Nat)) :=
  [("A+".toList, (68, 206, 27)),
   ("A".toList, (68, 206, 27)),
   ("A-".toList, (187, 219, 68)),
   ("B+".toList, (187, 219, 68)),
   ("B".toList, (187, 219, 68)),
   ("B-".toList, (247, 227, 121)),
   ("C+".toList, (247, 227, 121)),
   ("C".toList, (247, 227, 121)),
   ("C-".toList, (242, 161, 52)),
   ("D+".toList, (242, 161, 52)),
   ("D".toList, (242, 161, 52)),
   ("F".toList, (229, 31, 31))]

/-- The neutral near-black default color `(28, 28, 28)` of
`grade_colors.get(grade, (28, 28, 28))` (audit_mvp.py line 169). -/
def neutralColor : Nat × Nat × Nat := (28, 28, 28)

/-- `grade_colors.get(grade, (28, 28, 28))` (audit_mvp.py line 169): the
grade value taken from the report is looked up in the table; any
unrecognized token — including a non-string value, which can never equal a
string key — yields the neutral color. -/
def gradeColor : JVal → Nat × Nat × Nat
  | JVal.str g => (lookupKey grade_colors g).getD neutralColor
  | _ => neutralColor

/-- A Python single-quoted string display (escaping inside `repr` is not
modelled; the claims never exercise it). -/
def pyQuote (s : List Char) : List Char :=
  Char.ofNat 39 :: s ++ [Char.ofNat 39]

mutual

/-- Model of Python's `repr` on values produced by `json.loads`; number
lexemes stand in for Python's canonical numeric display. -/
def pyRepr : JVal → List Char
  | JVal.null => "None".toList
  | JVal.bool true => "True".toList
  | JVal.bool false => "False".toList
  | JVal.num lex => lex
  | JVal.str s => pyQuote s
  | JVal.arr items => '[' :: pyReprItems items ++ [']']
  | JVal.obj fields => '{' :: pyReprFields fields ++ ['}']

/-- `repr` of list items, comma-separated. -/
def pyReprItems : List JVal → List Char
  | [] => []
  | [v] => pyRepr v
  | v :: rest => pyRepr v ++ (", ".toList) ++ pyReprItems rest

/-- `repr` of dict entries, comma-separated. -/
def pyReprFields : List (List Char × JVal) → List Char
  | [] => []
  | [(k, v)] => pyQuote k ++ (": ".toList) ++ pyRepr v
  | (k, v) :: rest => pyQuote k ++ (": ".toList) ++ pyRepr v ++ (", ".toList) ++ pyReprFields rest

end

/-- Model of Python's `str()` on values produced by `json.loads`: the
identity on strings, `repr`-style display otherwise.  This is the
`str(details)` of audit_mvp.py line 147. -/
def pyStr : JVal → List Char
  | JVal.str s => s
  | v => pyRepr v

/-- `isinstance(details, dict)` (audit_mvp.py line 141). -/
def JVal.isDict : JVal → Bool
  | JVal.obj _ => true
  | _ => false

/-- The literal sentinel grade `N/A`. -/
def naGrade : List Char := "N/A".toList

/-- The literal key `grade`. -/
def gradeKey : List Char := "grade".toList

/-- The literal key `reasoning`. -/
def reasoningKey : List Char := "reasoning".toList

/-- The literal key `quick_wins`. -/
def quickWinsKey : List Char := "quick_wins".toList

/-- The three per-section values `grade`, `reasoning`, `quick_wins` that
`build_pdf` computes before drawing a section. -/
structure SectionFields where
  grade : JVal
  reasoning : JVal
  quick_wins : JVal

/-- The normalization of one section entry by `build_pdf` (audit_mvp.py
lines 140-148): a dict is read with `.get` defaults `"N/A"`, `""`, `[]`;
any non-dict value forces grade `N/A`, stringifies the whole value into
the reasoning, and leaves the quick-wins list empty. -/
def sectionFields (details : JVal) : SectionFields :=
  match details with
  | JVal.obj fields =>
    { grade := (lookupKey fields gradeKey).getD (JVal.str naGrade)
      reasoning := (lookupKey fields reasoningKey).getD (JVal.str [])
      quick_wins := (lookupKey fields quickWinsKey).getD (JVal.arr []) }
  | v =>
    { grade := JVal.str naGrade
      reasoning := JVal.str (pyStr v)
      quick_wins := JVal.arr [] }

/-- Python truthiness of a `json.loads` value, for `if quick_wins:`
(audit_mvp.py line 187).  A number is falsy exactly when it denotes zero;
for lexemes this is the absence of a nonzero digit (floating-point
underflow of tiny nonzero lexemes is not modelled). -/
def pyTruthy : JVal → Bool
  | JVal.null => false
  | JVal.bool b => b
  | JVal.num lex => lex.any (fun c => c.isDigit && c ≠ '0')
  | JVal.str s => !s.isEmpty
  | JVal.arr items => !items.isEmpty
  | JVal.obj fields => !fields.isEmpty

/-- Whether `build_pdf` draws the `Quick Wins:` block for a section
(audit_mvp.py line 187: `if quick_wins:`). -/
def quickWinsBlockShown (f : SectionFields) : Bool :=
  pyTruthy f.quick_wins

/-- The sequence of section blocks drawn by `build_pdf`'s main loop
(audit_mvp.py line 140: `for section, details in audit.items():`) — one
block per entry of the report mapping, in mapping order, each normalized
by `sectionFields`. -/
def drawnSections (audit : List (List Char × JVal)) : List (List Char × SectionFields) :=
  audit.map (fun kv => (kv.1, sectionFields kv.2))


/-! ## Helper lemmas -/

/-- Searching for a character in an appended list skips a first block that
does not contain it. -/
lemma suffixFrom_append_of_not_mem {c : Char} {a : List Char} (b : List Char)
    (h : c ∉ a) : suffixFrom c (a ++ b) = suffixFrom c b := by
  induction a with
  | nil => rfl
  | cons x xs ih =>
    rw [List.mem_cons, not_or] at h
    rw [List.cons_append, suffixFrom, if_neg (fun hx => h.1 hx.symm)]
    exact ih h.2

/-- A list starting with the searched character is returned whole. -/
lemma suffixFrom_cons_self (c : Char) (xs : List Char) :
    suffixFrom c (c :: xs) = some (c :: xs) := by
  simp [suffixFrom]

/-- Sanitized names consist only of allowed characters. -/
lemma sanitize_filename_all_allowed (s : List Char) :
    (sanitize_filename s).all isAllowedFilenameChar = true := by
  induction s with
  | nil => rfl
  | cons c cs ih =>
    have hu : isAllowedFilenameChar '_' = true := by decide
    by_cases h : isAllowedFilenameChar c
    · simpa [sanitize_filename, List.all_cons, h] using ih
    · simpa [sanitize_filename, List.all_cons, h, hu] using ih

/-- Sanitization preserves length (each character is kept or replaced). -/
lemma sanitize_filename_length (s : List Char) :
    (sanitize_filename s).length = s.length := by
  simp [sanitize_filename]

/-- A member's serialization is an infix of the comma-joined entry list. -/
lemma dumpsEntry_infix_joinEntries {kv : List Char × List Char}
    {d : List (List Char × List Char)} (h : kv ∈ d) :
    dumpsEntry kv <:+: joinEntries d := by
  induction d with
  | nil => simp at h
  | cons a rest ih =>
    rcases List.mem_cons.mp h with heq | hmem
    · subst heq
      cases rest with
      | nil => exact List.infix_refl _
      | cons b r =>
        show dumpsEntry kv <:+: dumpsEntry kv ++ (", ".toList) ++ joinEntries (b :: r)
        rw [List.append_assoc]
        exact (List.prefix_append _ _).isInfix
    · cases rest with
      | nil => simp at hmem
      | cons b r =>
        obtain ⟨u, w, huw⟩ := ih hmem
        show dumpsEntry kv <:+: dumpsEntry a ++ (", ".toList) ++ joinEntries (b :: r)
        exact ⟨dumpsEntry a ++ (", ".toList) ++ u, w, by rw [← huw]; simp⟩

/-- When a reply consists of a prose prefix without an opening brace, a
block starting with the opening brace and ending with the closing brace,
and a prose suffix without a closing brace, the greedy extraction returns
exactly the block. -/
lemma extractBraces_embed (p s q : List Char)
    (hp : '{' ∉ p) (hq : '}' ∉ q)
    (hs1 : s.head? = some '{') (hs2 : s.getLast? = some '}') :
    extractBraces (p ++ s ++ q) = some s := by
  obtain ⟨s', rfl⟩ : ∃ s', s = '{' :: s' := by
    cases s with
    | nil => simp at hs1
    | cons a t =>
      rw [List.head?_cons, Option.some_inj] at hs1
      exact ⟨t, by rw [hs1]⟩
  obtain ⟨t, ht⟩ : ∃ t, ('{' :: s').reverse = '}' :: t := by
    have hrev : ('{' :: s').reverse.head? = some '}' := by
      rw [List.head?_reverse]; exact hs2
    cases hre : ('{' :: s').reverse with
    | nil => rw [hre] at hrev; simp at hrev
    | cons a u =>
      rw [hre, List.head?_cons, Option.some_inj] at hrev
      exact ⟨u, by rw [hrev]⟩
  have hq' : '}' ∉ q.reverse := fun hc => hq (List.mem_reverse.mp hc)
  have h1 : suffixFrom '{' (p ++ ('{' :: s') ++ q) = some ('{' :: (s' ++ q)) := by
    rw [List.append_assoc, suffixFrom_append_of_not_mem _ hp, List.cons_append,
      suffixFrom_cons_self]
  have h2 : suffixFrom '}' (('{' :: (s' ++ q)).reverse) = some (('{' :: s').reverse) := by
    have hsplit : ('{' :: (s' ++ q)) = ('{' :: s') ++ q := by simp
    rw [hsplit, List.reverse_append, suffixFrom_append_of_not_mem _ hq', ht,
      suffixFrom_cons_self, ← ht]
  simp only [extractBraces, h1, h2, List.reverse_reverse]

/-! ## Claims -/

/-- C1: for every model reply in which no brace-delimited region is found,
and for every reply whose extracted region fails to deserialize, the parse
step of `analyze` returns the fallback mapping, whose `error` key holds
the non-empty reason string and whose `raw` key holds exactly the original
reply; totality of `analyzeParse` embeds the absence of an escaping
exception. -/
theorem c1_parse_failure_fallback (raw : List Char)
    (h : extractBraces raw = none
      ∨ ∃ s, extractBraces raw = some s ∧ json_loads s = none) :
    analyzeParse raw = fallbackReport raw
    ∧ lookupKey (fallbackItems raw) errKey = some (JVal.str errMsg)
    ∧ errMsg ≠ []
    ∧ lookupKey (fallbackItems raw) rawKey = some (JVal.str raw) := by
  refine ⟨?_, by rfl, by decide, by rfl⟩
  rcases h with he | ⟨s, hs, hl⟩
  · simp [analyzeParse, he]
  · simp [analyzeParse, hs, hl]

/-- A concrete model reply containing no brace at all. -/
def noJsonRaw : List Char := "just plain prose with no braces at all".toList

/-- C1 witness: at the concrete brace-free reply, extraction fails and the
parse step returns the fallback mapping. -/
theorem c1_parse_failure_fallback_witness :
    (extractBraces noJsonRaw = none
      ∨ ∃ s, extractBraces noJsonRaw = some s ∧ json_loads s = none)
    ∧ analyzeParse noJsonRaw = fallbackReport noJsonRaw :=
  ⟨Or.inl (by decide), (c1_parse_failure_fallback noJsonRaw (Or.inl (by decide))).1⟩

/-- A model reply holding a valid empty JSON object surrounded by prose
whose suffix contains a stray closing brace. -/
def c2Raw : List Char := ['x', '{', '}', 'y', '}']

/-- C2 counterexample: the reply `x\x7b\x7dy\x7d` embeds the valid JSON
object `\x7b\x7d` in surrounding prose, yet the Analyzer does not parse
that object — the greedy extraction spans to the stray closing brace, the
deserialization fails, and the fallback mapping is returned instead. -/
theorem c2_extracts_embedded_object_counterexample :
    analyzeParse c2Raw = fallbackReport c2Raw ∧ analyzeParse c2Raw ≠ JVal.obj [] :=
  ⟨rfl, fun h => absurd (congrArg JVal.topKeys h) (by decide)⟩

/-- C2 as amended: for every model reply made of a valid JSON object
embedded in surrounding prose whose leading part contains no opening brace
and whose trailing part contains no closing brace, the Analyzer extracts
and parses exactly that object, ignoring the surrounding text, and returns
the parsed value as-is with no structural validation of its keys. -/
theorem c2_extracts_embedded_object (p s q : List Char) (v : JVal)
    (hp : '{' ∉ p) (hq : '}' ∉ q)
    (hs1 : s.head? = some '{') (hs2 : s.getLast? = some '}')
    (hparse : json_loads s = some v) :
    analyzeParse (p ++ s ++ q) = v := by
  have he := extractBraces_embed p s q hp hq hs1 hs2
  rw [List.append_assoc] at he
  simp [analyzeParse, he, hparse]

/-- C2 witness: the degenerate object `\x7b\x7d` inside the prose
`x...y` is extracted and parsed to the empty object, accepted as-is. -/
theorem c2_extracts_embedded_object_witness :
    ('{' ∉ ['x']) ∧ ('}' ∉ ['y'])
    ∧ (['{', '}'].head? = some '{') ∧ (['{', '}'].getLast? = some '}')
    ∧ json_loads ['{', '}'] = some (JVal.obj [])
    ∧ analyzeParse (['x'] ++ ['{', '}'] ++ ['y']) = JVal.obj [] :=
  ⟨by decide, by decide, rfl, rfl, rfl,
    c2_extracts_embedded_object ['x'] ['{', '}'] ['y'] (JVal.obj [])
      (by decide) (by decide) rfl rfl rfl⟩

/-- C3 counterexample: for the caller-supplied target path `a`, `build_pdf`
computes and returns the file name `audit_a.pdf`, which is not the
caller-supplied path. -/
theorem c3_writes_to_target_path_counterexample :
    build_pdf_out_file ['a'] ≠ ['a'] := by decide

/-- C3 as amended: `build_pdf` derives the output-file name
`audit_` ++ sanitized second argument ++ `.pdf` (per its own docstring the
second argument is a website name used to NAME the file, not a target
path), writes its single output file there, and returns that derived name
— which never equals the caller-supplied argument, since it is ten
characters longer. -/
theorem c3_out_file_is_derived_name (website_url : List Char) :
    build_pdf_out_file website_url
      = ("audit_".toList) ++ sanitize_filename website_url ++ (".pdf".toList)
    ∧ build_pdf_out_file website_url ≠ website_url := by
  refine ⟨rfl, fun h => ?_⟩
  have hl := congrArg List.length h
  simp [build_pdf_out_file, sanitize_filename] at hl
  omega

/-- C4: the grade-to-color table maps the twelve letter-grade tokens into
the five shared buckets, one RGB color per bucket, with the five bucket
colors pairwise distinct; `A+` and `A` share one color, and every token
absent from the table — such as `Z` — renders with the neutral near-black
fallback color instead of failing. -/
theorem c4_grade_color_buckets :
    (gradeColor (JVal.str ("A+".toList)) = (68, 206, 27)
      ∧ gradeColor (JVal.str ("A".toList)) = (68, 206, 27)
      ∧ gradeColor (JVal.str ("A-".toList)) = (187, 219, 68)
      ∧ gradeColor (JVal.str ("B+".toList)) = (187, 219, 68)
      ∧ gradeColor (JVal.str ("B".toList)) = (187, 219, 68)
      ∧ gradeColor (JVal.str ("B-".toList)) = (247, 227, 121)
      ∧ gradeColor (JVal.str ("C+".toList)) = (247, 227, 121)
      ∧ gradeColor (JVal.str ("C".toList)) = (247, 227, 121)
      ∧ gradeColor (JVal.str ("C-".toList)) = (242, 161, 52)
      ∧ gradeColor (JVal.str ("D+".toList)) = (242, 161, 52)
      ∧ gradeColor (JVal.str ("D".toList)) = (242, 161, 52)
      ∧ gradeColor (JVal.str ("F".toList)) = (229, 31, 31)
      ∧ gradeColor (JVal.str ("A+".toList)) = gradeColor (JVal.str ("A".toList))
      ∧ gradeColor (JVal.str ("Z".toList)) = neutralColor
      ∧ [(68, 206, 27), (187, 219, 68), (247, 227, 121), (242, 161, 52),
          (229, 31, 31), (28, 28, 28)].Pairwise (fun x y => x ≠ y))
    ∧ ∀ g : List Char, lookupKey grade_colors g = none
        → gradeColor (JVal.str g) = neutralColor := by
  refine ⟨by decide, fun g h => ?_⟩
  simp [gradeColor, h]

/-- C4 witness: the unrecognized token `Z` is absent from the table and
renders with the neutral color. -/
theorem c4_grade_color_buckets_witness :
    lookupKey grade_colors ("Z".toList) = none
    ∧ gradeColor (JVal.str ("Z".toList)) = neutralColor :=
  ⟨by decide, c4_grade_color_buckets.2 ("Z".toList) (by decide)⟩

/-- C5 counterexample: for the site name `a/b`, `sanitize_filename` does
not strip the disallowed slash — stripping would give `ab` — it replaces
it with an underscore, giving `a_b`. -/
theorem c5_sanitize_strips_counterexample :
    sanitize_filename ['a', '/', 'b'] = ['a', '_', 'b']
    ∧ sanitize_filename ['a', '/', 'b']
        ≠ List.filter (fun c => isAllowedFilenameChar c) ['a', '/', 'b'] := by
  decide

/-- C5 as amended: for every input site-name string, including ones with
slashes, colons, or spaces, the sanitized output contains only word
characters, hyphens, underscores, periods, and spaces; each disallowed
character is replaced with an underscore (not stripped). -/
theorem c5_sanitize_output_allowed (s : List Char) :
    (sanitize_filename s).all isAllowedFilenameChar = true
    ∧ sanitize_filename s
        = s.map (fun c => if isAllowedFilenameChar c then c else '_') :=
  ⟨sanitize_filename_all_allowed s, rfl⟩

/-- C6: every section entry whose value is not a dict is rendered with the
grade forced to the sentinel `N/A` — whose color is the neutral one — the
stringified entire value as the reasoning text, and an empty quick-wins
list. -/
theorem c6_non_dict_section_normalization (details : JVal)
    (h : details.isDict = false) :
    sectionFields details
      = { grade := JVal.str naGrade
          reasoning := JVal.str (pyStr details)
          quick_wins := JVal.arr [] }
    ∧ gradeColor (JVal.str naGrade) = neutralColor := by
  cases details with
  | obj fields => simp [JVal.isDict] at h
  | null => exact ⟨rfl, by decide⟩
  | bool b => exact ⟨rfl, by decide⟩
  | num lex => exact ⟨rfl, by decide⟩
  | str s => exact ⟨rfl, by decide⟩
  | arr items => exact ⟨rfl, by decide⟩

/-- C6 witness: a plain string section value is normalized to grade `N/A`,
its own text as reasoning, and no quick wins. -/
theorem c6_non_dict_section_normalization_witness :
    JVal.isDict (JVal.str ("oops".toList)) = false
    ∧ sectionFields (JVal.str ("oops".toList))
        = { grade := JVal.str naGrade
            reasoning := JVal.str ("oops".toList)
            quick_wins := JVal.arr [] } :=
  ⟨rfl, (c6_non_dict_section_normalization (JVal.str ("oops".toList)) rfl).1⟩

/-- C7: for every scraped text and every rubric, the constructed prompt
contains, verbatim as a substring, the full text and the serialized form
of every rubric entry; `build_prompt` is a plain function of these two
inputs, hence deterministic. -/
theorem c7_prompt_contains_text_and_rubric (text : List Char)
    (rubric : List (List Char × List Char)) :
    text <:+: build_prompt text rubric
    ∧ ∀ kv ∈ rubric, dumpsEntry kv <:+: build_prompt text rubric := by
  constructor
  · exact ⟨promptPart1, promptPart2 ++ json_dumps_strdict rubric ++ promptPart3,
      by simp [build_prompt]⟩
  · intro kv hkv
    have h1 : dumpsEntry kv <:+: joinEntries rubric := dumpsEntry_infix_joinEntries hkv
    have h2 : joinEntries rubric <:+: json_dumps_strdict rubric :=
      ⟨['{'], ['}'], by simp [json_dumps_strdict]⟩
    have h3 : json_dumps_strdict rubric <:+: build_prompt text rubric :=
      ⟨promptPart1 ++ text ++ promptPart2, promptPart3, by simp [build_prompt]⟩
    exact (h1.trans h2).trans h3

/-- C7 witness: for the concrete text `hello` and the one-entry rubric
`Brand ↦ x`, the prompt contains the text and the serialized entry. -/
theorem c7_prompt_contains_text_and_rubric_witness :
    (("Brand".toList, "x".toList) ∈ [(("Brand".toList), ("x".toList))])
    ∧ ("hello".toList) <:+: build_prompt ("hello".toList) [(("Brand".toList), ("x".toList))]
    ∧ dumpsEntry (("Brand".toList), ("x".toList))
        <:+: build_prompt ("hello".toList) [(("Brand".toList), ("x".toList))] :=
  ⟨by simp,
    (c7_prompt_contains_text_and_rubric ("hello".toList) [(("Brand".toList), ("x".toList))]).1,
    (c7_prompt_contains_text_and_rubric ("hello".toList) [(("Brand".toList), ("x".toList))]).2
      (("Brand".toList), ("x".toList)) (by simp)⟩

/-- C8 counterexample: on the fallback report shape the renderer's section
loop iterates the report's own keys — `error` and `raw` — and therefore
does not draw the four fixed sections Brand, Content, Website, Marketing. -/
theorem c8_draws_four_fixed_sections_counterexample :
    (drawnSections (fallbackItems ("plain prose".toList))).map Prod.fst
      ≠ [("Brand".toList), ("Content".toList), ("Website".toList), ("Marketing".toList)] := by
  decide

/-- C8 as amended: the renderer draws one titled, grade-badged section
block per entry of the report mapping, in mapping order (so exactly the
four fixed sections precisely when the report has exactly those keys);
given the fallback report shape it draws the two entries `error` and
`raw`, each with grade `N/A` and an empty quick-wins list, so the produced
document is still non-empty. -/
theorem c8_sections_follow_report_keys (audit : List (List Char × JVal))
    (raw : List Char) :
    (drawnSections audit).map Prod.fst = audit.map Prod.fst
    ∧ drawnSections (fallbackItems raw)
        = [(errKey, { grade := JVal.str naGrade
                      reasoning := JVal.str errMsg
                      quick_wins := JVal.arr [] }),
           (rawKey, { grade := JVal.str naGrade
                      reasoning := JVal.str raw
                      quick_wins := JVal.arr [] })] := by
  constructor
  · induction audit with
    | nil => rfl
    | cons kv rest ih => simp [drawnSections]
  · rfl

/-- C9: `sanitize_filename` is idempotent — every character of its output,
including the underscore it substitutes for disallowed characters, is in
the allowed class, so a second pass changes nothing. -/
theorem c9_sanitize_filename_idempotent (s : List Char) :
    sanitize_filename (sanitize_filename s) = sanitize_filename s := by
  induction s with
  | nil => rfl
  | cons c cs ih =>
    have hu : isAllowedFilenameChar '_' = true := by decide
    by_cases h : isAllowedFilenameChar c
    · simpa [sanitize_filename, h] using ih
    · simpa [sanitize_filename, h, hu] using ih

/-- C10: for every section value that IS a dict, each missing expected key
independently gets its default instead of failing: a missing `grade` key
yields the sentinel `N/A`, a missing `reasoning` key yields the empty
string, and a missing `quick_wins` key yields the empty list — in which
case the `Quick Wins` block is omitted entirely (`if quick_wins:` is falsy
on the empty list).  Each default depends only on its own key's absence,
regardless of which other keys are present. -/
theorem c10_dict_missing_keys_defaults (fields : List (List Char × JVal)) :
    (lookupKey fields gradeKey = none
      → (sectionFields (JVal.obj fields)).grade = JVal.str naGrade)
    ∧ (lookupKey fields reasoningKey = none
      → (sectionFields (JVal.obj fields)).reasoning = JVal.str [])
    ∧ (lookupKey fields quickWinsKey = none
      → (sectionFields (JVal.obj fields)).quick_wins = JVal.arr []
        ∧ quickWinsBlockShown (sectionFields (JVal.obj fields)) = false) := by
  refine ⟨fun h1 => ?_, fun h2 => ?_, fun h3 => ?_⟩
  · simp [sectionFields, h1]
  · simp [sectionFields, h2]
  · constructor
    · simp [sectionFields, h3]
    · simp [quickWinsBlockShown, sectionFields, h3, pyTruthy]

/-- C10 witness: a dict holding only a `grade` key misses the other two
keys independently — its reasoning defaults to the empty string, its
quick-wins list to the empty list, and the quick-wins block is omitted. -/
theorem c10_dict_missing_keys_defaults_witness :
    (lookupKey [(gradeKey, JVal.str ['A'])] reasoningKey = none)
    ∧ (lookupKey [(gradeKey, JVal.str ['A'])] quickWinsKey = none)
    ∧ (lookupKey ([] : List (List Char × JVal)) gradeKey = none)
    ∧ (sectionFields (JVal.obj [(gradeKey, JVal.str ['A'])])).reasoning = JVal.str []
    ∧ (sectionFields (JVal.obj [(gradeKey, JVal.str ['A'])])).quick_wins = JVal.arr []
    ∧ quickWinsBlockShown (sectionFields (JVal.obj [(gradeKey, JVal.str ['A'])])) = false
    ∧ (sectionFields (JVal.obj [])).grade = JVal.str naGrade :=
  ⟨rfl, rfl, rfl,
    (c10_dict_missing_keys_defaults [(gradeKey, JVal.str ['A'])]).2.1 rfl,
    ((c10_dict_missing_keys_defaults [(gradeKey, JVal.str ['A'])]).2.2 rfl).1,
    ((c10_dict_missing_keys_defaults [(gradeKey, JVal.str ['A'])]).2.2 rfl).2,
    (c10_dict_missing_keys_defaults []).1 rfl⟩
